import Mathlib

/-!
Shallow embedding of the NexusFlow reconciliation/aggregation pipeline
(`src/data_processing_utils.py`, `src/etl_pipelines.py`, `src/config.py`).

Conventions used throughout:
* Python scalars flowing through the normalizers are modelled by `PyVal`;
  missing values (`None`, `pd.NA`, `np.nan` as a missing marker) are `PyVal.na`,
  Python floats are `PyFloat` (exact rationals plus `inf`, `-inf`, `nan`).
* pandas columns of optional strings are `Option String`; `none` is NA.
* Monetary floats are modelled as exact rationals `ℚ`; the properties proved
  about them are the arithmetic identities the code computes directly, and the
  concrete inputs used below are exact in binary floating point as well.
* Exceptions are modelled with `Except PyErr`; a `.error` value marks a raise
  that escapes the function.
* Character-level operations model Python string methods on ASCII data
  (`str.isdigit`, `str.upper`, regexp `\D`, ...); the cleaning step of
  `clean_string` removes every non-ASCII character before any case transform,
  so the ASCII model is faithful for cleaned data.
-/

namespace NexusFlow

/-- Python float values: finite floats are modelled as exact rationals. -/
inductive PyFloat where
  | finite (q : ℚ)
  | inf
  | negInf
  | nan
deriving DecidableEq

/-- Python scalar values reaching the normalizers: missing (None / pd.NA),
strings, ints and floats. -/
inductive PyVal where
  | na
  | str (s : String)
  | int (n : Int)
  | float (f : PyFloat)
deriving DecidableEq

/-- Exceptions that the embedded code can raise. -/
inductive PyErr where
  | valueError
  | overflowError
deriving DecidableEq

instance : DecidableEq (Except PyErr PyVal) := fun a b =>
  match a, b with
  | .ok x, .ok y =>
    if h : x = y then isTrue (by rw [h]) else isFalse (fun hc => h (Except.ok.inj hc))
  | .error x, .error y =>
    if h : x = y then isTrue (by rw [h]) else isFalse (fun hc => h (Except.error.inj hc))
  | .ok _, .error _ => isFalse (fun hc => Except.noConfusion hc)
  | .error _, .ok _ => isFalse (fun hc => Except.noConfusion hc)

/-- Target type argument of `to_numeric_safe`. -/
inductive TType where
  | int
  | float
deriving DecidableEq

/-- Case transform argument of `clean_string`. -/
inductive CaseT where
  | keep
  | lower
  | upper
  | title
deriving DecidableEq

/-- Characters stripped by Python `str.strip()` (whitespace). -/
def pyIsSpace (c : Char) : Bool :=
  c = ' ' || c = '\t' || c = '\n' || c = '\r' || c = '\x0b' || c = '\x0c'

/-- Python `str.strip()`. -/
def pyStrip (s : String) : String :=
  String.mk ((s.data.dropWhile pyIsSpace).reverse.dropWhile pyIsSpace |>.reverse)

/-- Python `str.lower()` on ASCII data. -/
def pyLower (s : String) : String :=
  String.mk (s.data.map Char.toLower)

/-- Python `str.upper()` on ASCII data. -/
def pyUpper (s : String) : String :=
  String.mk (s.data.map Char.toUpper)

/-- Python `str.title()` on ASCII data: the first letter of every run of
letters is uppercased, the following ones lowercased. -/
def pyTitleGo : Bool → List Char → List Char
  | _, [] => []
  | prevAlpha, c :: cs =>
    if c.isAlpha then
      (if prevAlpha then c.toLower else c.toUpper) :: pyTitleGo true cs
    else
      c :: pyTitleGo false cs

/-- Python `str.title()` on ASCII data. -/
def pyTitle (s : String) : String :=
  String.mk (pyTitleGo false s.data)

/-- Characters kept by the `clean_string` printable filter:
`[^\x20-\x7E\n\r\t]` is removed. -/
def keepPrintable (c : Char) : Bool :=
  (0x20 ≤ c.toNat && c.toNat ≤ 0x7E) || c = '\n' || c = '\r' || c = '\t'

/-- Python `' '.join(s.split())`: collapse whitespace runs to single spaces. -/
def normalizeWs (s : String) : String :=
  String.intercalate " " ((s.data.splitOnP (pyIsSpace ·)).map String.mk
    |>.filter (fun w => w ≠ ""))

/-- `clean_string(text, case, default_if_empty)` from
`src/data_processing_utils.py`.  Missing or strip-empty input returns the
default; otherwise non-printable characters are removed, whitespace is
normalised and the case transform is applied.  Note that the result can be
the empty string (printable filtering can erase every character after the
emptiness test has already passed). -/
def clean_string (text : Option String) (case : CaseT) (default_if_empty : Option String) :
    Option String :=
  match text with
  | none => default_if_empty
  | some t =>
    let t1 := pyStrip t
    if t1 = "" then default_if_empty
    else
      let t2 := normalizeWs (String.mk (t1.data.filter keepPrintable))
      some (match case with
        | .keep => t2
        | .lower => pyLower t2
        | .upper => pyUpper t2
        | .title => pyTitle t2)

/-- Python `str.isdigit()` on ASCII data: nonempty and all decimal digits. -/
def pyIsDigit (s : String) : Bool :=
  s ≠ "" && s.data.all Char.isDigit

/-- Numeric value of an all-digit string (models `int(float(s))` for the
digit-only strings on which the pipeline calls it; the float rounding that
Python would apply to digit strings longer than 17 digits is not modelled). -/
def digitsToNat (s : String) : Nat :=
  s.data.foldl (fun n c => n * 10 + (c.toNat - 48)) 0

/-- Python `str.zfill(w)`: left-pad with zeros to width `w`, keeping a
leading sign in place. -/
def pyZfill (w : Nat) (s : String) : String :=
  let (sign, body) :=
    match s.data with
    | '+' :: rest => ("+", rest)
    | '-' :: rest => ("-", rest)
    | l => ("", l)
  if s.length ≥ w then s
  else sign ++ String.mk (List.replicate (w - s.length) '0') ++ String.mk body

/-- Substring `s[a:b]` on character positions (ASCII model). -/
def pySlice (s : String) (a b : Nat) : String :=
  String.mk ((s.data.drop a).take (b - a))

/-- Worker for `replaceChars`; the fuel argument (initialised to the input
length) makes the recursion structural. -/
def replaceGo (pat rep : List Char) : Nat → List Char → List Char
  | _, [] => []
  | 0, l => l
  | fuel + 1, c :: cs =>
    if pat ≠ [] && pat.isPrefixOf (c :: cs) then
      rep ++ replaceGo pat rep fuel ((c :: cs).drop pat.length)
    else
      c :: replaceGo pat rep fuel cs

/-- Python `str.replace(pat, rep)`: replace every non-overlapping occurrence
left to right (used with nonempty patterns only). -/
def replaceChars (pat rep l : List Char) : List Char :=
  replaceGo pat rep l.length l

/-- Python `str.replace` wrapper on `String`. -/
def pyReplace (s pat rep : String) : String :=
  String.mk (replaceChars pat.data rep.data s.data)

/-- Python `str.startswith`, on the character list (kernel-reducible form). -/
def strStartsWith (s p : String) : Bool :=
  p.data.isPrefixOf s.data

/-- `pd.isna` on the modelled values: missing markers and float nan. -/
def pyIsNa : PyVal → Bool
  | .na => true
  | .float .nan => true
  | _ => false

/-- Floor of a rational, computed by floor division of the reduced fraction
(kernel-reducible form of `⌊q⌋`). -/
def ratFloor (q : ℚ) : Int :=
  Int.fdiv q.num (q.den : Int)

/-- Truncation toward zero, the behaviour of Python `int(float)`. -/
def ratTrunc (q : ℚ) : Int :=
  Int.tdiv q.num (q.den : Int)

/-- Python `round` to an integer: round half to even. -/
def pyRound (q : ℚ) : Int :=
  let f := ratFloor q
  let frac := q - (f : ℚ)
  if frac < 1/2 then f
  else if frac > 1/2 then f + 1
  else if f % 2 = 0 then f else f + 1

/-- Parses an unsigned decimal `digits[.digits]` as an exact rational. -/
def parseDecimal (l : List Char) : Option ℚ :=
  let intPart := l.takeWhile Char.isDigit
  let rest := l.drop intPart.length
  let ok (ip fp : List Char) : Option ℚ :=
    if ip = [] ∧ fp = [] then none
    else
      some ((digitsToNat (String.mk ip) : ℚ) +
        (digitsToNat (String.mk fp) : ℚ) / ((10 : ℚ) ^ fp.length))
  match rest with
  | [] => ok intPart []
  | '.' :: fracRest =>
    let fracPart := fracRest.takeWhile Char.isDigit
    if fracRest.drop fracPart.length = [] then ok intPart fracPart else none
  | _ => none

/-- Python `float(s)` on the grammar exercised by this pipeline: optional
sign, a decimal number `digits[.digits]` or `.digits`, or the special tokens
`inf` / `infinity` / `nan` (case-insensitive).  `none` models `ValueError`.
Exponent notation and underscores are not modelled. -/
def pyParseFloat (s : String) : Option PyFloat :=
  let t := pyStrip s
  let (neg, body) :=
    match t.data with
    | '+' :: rest => (false, rest)
    | '-' :: rest => (true, rest)
    | l => (false, l)
  let low := pyLower (String.mk body)
  if low = "inf" ∨ low = "infinity" then some (if neg then .negInf else .inf)
  else if low = "nan" then some .nan
  else
    match parseDecimal body with
    | some q => some (.finite (if neg then -q else q))
    | none => none

/-- Division of a Python float by 100 (the percent-sign rule). -/
def pyFloatDiv100 : PyFloat → PyFloat
  | .finite q => .finite (q / 100)
  | .inf => .inf
  | .negInf => .negInf
  | .nan => .nan

/-- Empty-like tokens short-circuiting `to_numeric_safe`. -/
def numericNaTokens : List String :=
  ["na", "none", "null", "unknown", "#n/a", "nan"]

/-- `to_numeric_safe(value, target_type, default_value, errors)` from
`src/data_processing_utils.py` with `errors='coerce'` modelled by
`coerce = true`.  A `.error` result models an exception escaping the
function: `OverflowError` is not caught by any of its `except` clauses. -/
def to_numeric_safe (value : PyVal) (target : TType) (default_value : Option PyVal)
    (coerce : Bool) : Except PyErr PyVal :=
  let dflt : PyVal :=
    default_value.getD (if target = .int then .na else .float .nan)
  if pyIsNa value then .ok dflt
  else
    match value with
    | .int n => .ok (if target = .int then .int n else .float (.finite (n : ℚ)))
    | .float f =>
      -- `target_type(value)`: int() of a float truncates; int(inf) raises
      -- OverflowError, which the `except (ValueError, TypeError)` does not catch.
      (match target, f with
        | .float, _ => .ok (.float f)
        | .int, .finite q => .ok (.int (ratTrunc q))
        | .int, .inf => .error .overflowError
        | .int, .negInf => .error .overflowError
        | .int, .nan => .ok dflt)
    | .na => .ok dflt
    | .str s =>
      let sval := pyStrip s
      if sval = "" ∨ pyLower sval ∈ numericNaTokens then .ok dflt
      else
        let s2 := String.mk (sval.data.filter (fun c => c ≠ '$' && c ≠ ','))
        let isPct := s2.data.contains '%'
        let s3 := String.mk (s2.data.filter (fun c => c ≠ '%'))
        match pyParseFloat s3 with
        | none => if coerce then .ok dflt else .error .valueError
        | some f0 =>
          let num := if isPct then pyFloatDiv100 f0 else f0
          match target, num with
          | .float, _ => .ok (.float num)
          | .int, .nan => .ok dflt
          | .int, .finite q => .ok (.int (pyRound q))
          -- `int(round(inf))` raises OverflowError, uncaught.
          | .int, .inf => .error .overflowError
          | .int, .negInf => .error .overflowError

/-- `to_numeric_safe` specialised to an int target with a default, absorbing
the (unreachable for finite inputs) error case into the default; used where
the pipeline applies it elementwise to a column. -/
def toNumericIntD (v : PyVal) (d : Int) : Int :=
  match to_numeric_safe v .int (some (.int d)) true with
  | .ok (.int n) => n
  | _ => d

/-- `to_numeric_safe` specialised to a float target with a default; finite
rational results only (non-finite floats are outside the modelled data). -/
def toNumericFloatD (v : PyVal) (d : ℚ) : ℚ :=
  match to_numeric_safe v .float (some (.float (.finite d))) true with
  | .ok (.float (.finite q)) => q
  | _ => d

/-- `to_numeric_safe(x, target_type=int)` with default `pd.NA`, as an
`Option Int` (used for `age_provided_numeric` and the id columns). -/
def toNumericOptInt (v : PyVal) : Option Int :=
  match to_numeric_safe v .int none true with
  | .ok (.int n) => some n
  | _ => none

/-- `standardize_phone_strict(phone_str, default_if_invalid)` from
`src/data_processing_utils.py`: keep only digits; a 10-digit result is
formatted `(xxx) xxx-xxxx`; an 11-digit result starting with `1` is
formatted `+1 (xxx) xxx-xxxx`; everything else returns the default. -/
def standardize_phone_strict (phone : Option String) (default_if_invalid : Option String) :
    Option String :=
  match phone with
  | none => default_if_invalid
  | some s =>
    let cleaned := String.mk (s.data.filter Char.isDigit)
    if cleaned.length = 10 then
      some ("(" ++ pySlice cleaned 0 3 ++ ") " ++ pySlice cleaned 3 6 ++ "-" ++
        pySlice cleaned 6 10)
    else if cleaned.length = 11 && strStartsWith cleaned "1" then
      some ("+1 (" ++ pySlice cleaned 1 4 ++ ") " ++ pySlice cleaned 4 7 ++ "-" ++
        pySlice cleaned 7 11)
    else default_if_invalid

/-- `standardize_postal_code(postal_code_str, country='US', default_if_invalid)`
from `src/data_processing_utils.py`: keep only digits; 5 digits are returned
as-is, 9 digits as `xxxxx-xxxx`, everything else returns the default. -/
def standardize_postal_code (postal : Option String) (default_if_invalid : Option String) :
    Option String :=
  match postal with
  | none => default_if_invalid
  | some s0 =>
    let pc := String.mk ((pyStrip s0).data.filter Char.isDigit)
    if pc.length = 5 then some pc
    else if pc.length = 9 then some (pySlice pc 0 5 ++ "-" ++ pySlice pc 5 9)
    else default_if_invalid

/-- A calendar date as handled by `datetime.strptime('%Y-%m-%d')`. -/
structure Date where
  year : Nat
  month : Nat
  day : Nat
deriving DecidableEq

/-- Gregorian leap years. -/
def isLeap (y : Nat) : Bool :=
  (y % 4 = 0 && y % 100 ≠ 0) || y % 400 = 0

/-- Days in a month of a given year. -/
def daysInMonth (y m : Nat) : Nat :=
  if m = 2 then (if isLeap y then 29 else 28)
  else if m = 4 ∨ m = 6 ∨ m = 9 ∨ m = 11 then 30
  else 31

/-- `datetime.strptime(s, '%Y-%m-%d')`: three dash-separated digit groups
(year up to 4 digits, month and day up to 2) validated against the calendar;
`none` models the `ValueError` that `calculate_age` catches. -/
def parseYMD (s : String) : Option Date :=
  match (s.data.splitOnP (· = '-')).map String.mk with
  | [ys, ms, ds] =>
    if pyIsDigit ys ∧ ys.length ≤ 4 ∧ pyIsDigit ms ∧ ms.length ≤ 2 ∧
        pyIsDigit ds ∧ ds.length ≤ 2 then
      let y := digitsToNat ys
      let m := digitsToNat ms
      let d := digitsToNat ds
      if 1 ≤ y ∧ 1 ≤ m ∧ m ≤ 12 ∧ 1 ≤ d ∧ d ≤ daysInMonth y m then
        some ⟨y, m, d⟩
      else none
    else none
  | _ => none

/-- `calculate_age` from `etl_customers` (src/etl_pipelines.py): parse the
first 10 characters of the birth-date string as `%Y-%m-%d` and subtract one
year when today's `(month, day)` is lexicographically before the birthday.
`today` is `datetime.today()`, passed explicitly. -/
def calculate_age (today : Date) (birth_date_str : Option String) : Option Int :=
  match birth_date_str with
  | none => none
  | some s =>
    match parseYMD (pySlice s 0 10) with
    | none => none
    | some b =>
      some ((today.year : Int) - (b.year : Int) -
        (if today.month < b.month ∨ (today.month = b.month ∧ today.day < b.day)
         then 1 else 0))

/-- The age stage of `etl_customers`:
`age_final = age_calculated.fillna(age_provided_numeric)` where
`age_provided_numeric = to_numeric_safe(age, target_type=int, default=pd.NA)`.
The computed age takes precedence; the provided age fills only its gaps. -/
def age_final (today : Date) (birth_date_final : Option String) (raw_age : PyVal) :
    Option Int :=
  match calculate_age today birth_date_final with
  | some a => some a
  | none => toNumericOptInt raw_age

/-- Zero-pad width for canonical customer ids (`ZFILL_LENGTH` in
src/etl_pipelines.py). -/
def ZFILL_LENGTH : Nat := 4

/-- `create_canonical_customer_id` from `etl_customers`
(src/etl_pipelines.py, lines 91-110).  `pre_canon_id` is the coalesced,
upper-cleaned string id column, `int_val` the numeric source id, and
`orig_index` the row's original index rendered as a string. -/
def create_canonical_customer_id (pre_canon_id : Option String) (int_val : Option Int)
    (orig_index : String) : String :=
  let fromInt : String :=
    match int_val with
    | some n => "CUST_" ++ pyZfill ZFILL_LENGTH (toString n)
    | none => "CUST_UNKNOWN_" ++ orig_index
  match pre_canon_id with
  | some p =>
    if pyStrip p ≠ "" then
      if strStartsWith p "CUST_" || !pyIsDigit p then p
      else "CUST_" ++ pyZfill ZFILL_LENGTH (toString (digitsToNat p))
    else fromInt
  | none => fromInt

/-- `map_recon_customer_id` from `etl_order_items_from_reconciliation`
(src/etl_pipelines.py, lines 402-418): clean and uppercase the raw client
reference; when it starts with `CLI_`, replace every `CLI_` by `CUST_` and
test membership; otherwise (or on a failed test) test the cleaned value
itself.  No zero-padding is applied to the translated reference. -/
def map_recon_customer_id (client_ref : Option String)
    (canonical_customer_ids : List String) : Option String :=
  match client_ref with
  | none => none
  | some v =>
    match clean_string (some v) .upper none with
    | none => none
    | some cleaned =>
      if strStartsWith cleaned "CLI_" then
        let potential := pyReplace cleaned "CLI_" "CUST_"
        if potential ∈ canonical_customer_ids then some potential
        else if cleaned ∈ canonical_customer_ids then some cleaned
        else none
      else if cleaned ∈ canonical_customer_ids then some cleaned
      else none

/-- `map_recon_product_id_corrected` from `etl_order_items_from_reconciliation`
(src/etl_pipelines.py, lines 424-444): test the cleaned reference against the
known product ids; otherwise strip an `ITM_` marker (or use the reference
itself when it is all digits) and look the digits up in the local
int-id-to-canonical-id map. -/
def map_recon_product_id_corrected (item_ref : Option String)
    (product_int_to_canonical_map : List (String × String))
    (canonical_prod_ids : List String) : Option String :=
  match item_ref with
  | none => none
  | some v =>
    match clean_string (some v) .upper none with
    | none => none
    | some cleaned =>
      if cleaned = "" then none
      else if cleaned ∈ canonical_prod_ids then some cleaned
      else
        let itemNum : Option String :=
          if strStartsWith cleaned "ITM_" then some (pyReplace cleaned "ITM_" "")
          else if pyIsDigit cleaned then some cleaned
          else none
        match itemNum with
        | some numStr =>
          if numStr ≠ "" ∧ pyIsDigit numStr then
            match product_int_to_canonical_map.lookup numStr with
            | some canon => some canon
            | none => none
          else none
        | none => none

/-- `DEFAULT_STATUS_UNKNOWN` from src/config.py. -/
def DEFAULT_STATUS_UNKNOWN : String := "UNKNOWN"

/-- One combined order-item row, restricted to the columns the aggregation
step reads (`etl_combine_orders_and_create_orders_table`).  The five numeric
aggregation columns are modelled as exact rationals; both item ETLs populate
all of them, so the `fillna(0.0)` coercion is the identity here. -/
structure Item where
  order_id : Option String
  customer_id : Option String
  product_id : Option String
  status : Option String
  line_total : ℚ
  discount : ℚ
  shipping : ℚ
  tax : ℚ
  amount_paid : ℚ
deriving DecidableEq

/-- One aggregated Orders row, restricted to the columns the claims are
about (the remaining first-non-null / min / join aggregates are independent
of these and are omitted from the model). -/
structure Order where
  order_id : String
  customer_id : Option String
  order_status : Option String
  discount_total : ℚ
  order_total_value_gross : ℚ
  order_total_value_net : ℚ
deriving DecidableEq

/-- First occurrence of each value, in encounter order (the key order of
`groupby(..., sort=False)` and the value order of `pandas` hash-table mode
computation). -/
def firstDedupAux {α : Type} [DecidableEq α] (seen : List α) : List α → List α
  | [] => []
  | x :: xs =>
    if x ∈ seen then firstDedupAux seen xs
    else x :: firstDedupAux (x :: seen) xs

/-- First occurrence of each value, in encounter order. -/
def firstDedup {α : Type} [DecidableEq α] (l : List α) : List α :=
  firstDedupAux [] l

/-- `groupby.first`: the first non-null entry of a column, NA when there is
none. -/
def firstSome : List (Option String) → Option String
  | [] => none
  | some s :: _ => some s
  | none :: rest => firstSome rest

/-- `x.mode(dropna=False).iat[0]` guarded by the emptiness check of the
`order_status` aggregation lambda: values are counted with NA included,
the most frequent values are collected and `pandas` sorts them (ascending)
before `iat[0]` picks the head; when the modes cannot be sorted because NA
is among them, `np.sort` raises `TypeError` and the hash-table order is
kept.  The modes are pairwise distinct, so any comparison sort yields the
same sorted list; an insertion sort is used here.  An empty input returns
`DEFAULT_STATUS_UNKNOWN` (the `else` branch of the lambda). -/
def modeMaxCnt (xs : List (Option String)) : Nat :=
  ((firstDedup xs).map (fun v => xs.count v)).foldr max 0

/-- The most frequent values of the column, in first-encounter order. -/
def modeModes (xs : List (Option String)) : List (Option String) :=
  (firstDedup xs).filter (fun v => xs.count v = modeMaxCnt xs)

def pandasModeAgg (xs : List (Option String)) : Option String :=
  let modes := modeModes xs
  let sortedModes :=
    if modes.all Option.isSome then
      ((modes.filterMap id).insertionSort (· ≤ ·)).map some
    else modes
  match sortedModes with
  | [] => some DEFAULT_STATUS_UNKNOWN
  | m :: _ => m

/-- The items of one `groupby('order_id')` group. -/
def groupItems (items : List Item) (k : String) : List Item :=
  items.filter (fun it => it.order_id = some k)

/-- The group keys of `groupby('order_id', sort=False)`: distinct non-null
order ids in order of first occurrence. -/
def orderKeys (items : List Item) : List String :=
  firstDedup (items.filterMap (·.order_id))

/-- The aggregation of one order-id group (the named aggregations of
`df_all_order_items.groupby('order_id').agg(...)` restricted to the
modelled columns, plus the subsequent
`order_total_value_net = order_total_value_gross - discount_total`). -/
def aggGroup (items : List Item) (k : String) : Order :=
  let g := groupItems items k
  let gross := (g.map (·.line_total)).sum
  let disc := (g.map (·.discount)).sum
  { order_id := k
    customer_id := firstSome (g.map (·.customer_id))
    order_status := pandasModeAgg (g.map (·.status))
    discount_total := disc
    order_total_value_gross := gross
    order_total_value_net := gross - disc }

/-- The full aggregated Orders table before the known-customer filter. -/
def ordersPre (items : List Item) : List Order :=
  (orderKeys items).map (aggGroup items)

/-- `astype(str)` of an order's `customer_id` cell (missing values render as
the string `nan`). -/
def custStr : Option String → String
  | some s => s
  | none => "nan"

/-- The known-customer referential filter on aggregated Orders: applied only
when at least one aggregated order has a non-null `customer_id`
(`df_orders['customer_id'].notna().any()`), and skipped entirely otherwise. -/
def filterOrders (orders : List Order) (known_customer_ids : List String) : List Order :=
  if orders.any (fun o => o.customer_id.isSome) then
    orders.filter (fun o => custStr o.customer_id ∈ known_customer_ids)
  else orders

/-- The second-pass filter on OrderItems: keep only rows whose `order_id`
is in the final Orders set; when the Orders table is empty the OrderItems
table is emptied as well. -/
def filterItems (items : List Item) (orders : List Order) : List Item :=
  if orders = [] then []
  else
    items.filter (fun it =>
      match it.order_id with
      | some k => (orders.map (·.order_id)).contains k
      | none => false)

/-- `etl_combine_orders_and_create_orders_table(df_items_list, _, known)` from
src/etl_pipelines.py (lines 579-630), restricted to the modelled columns:
concatenate the item batches (empty input short-circuits to two empty
tables), aggregate by `order_id`, apply the known-customer filter, derive
the net total, and re-filter the items against the surviving orders. -/
def etl_combine_orders_and_create_orders_table (df_items_list : List (List Item))
    (known_customer_ids : List String) : List Item × List Order :=
  if df_items_list.all (· = []) then ([], [])
  else
    let df_all_order_items := df_items_list.flatten
    let df_orders := filterOrders (ordersPre df_all_order_items) known_customer_ids
    (filterItems df_all_order_items df_orders, df_orders)

/-- One raw row of the reconciliation order-item source, after the column
renames at the top of `etl_order_items_from_reconciliation`, restricted to
the columns feeding the modelled `Item` fields. -/
structure ReconRaw where
  client_reference : Option String
  transaction_ref : Option String
  item_reference : Option String
  quantity_ordered : PyVal
  unit_cost : PyVal
  discount_applied : PyVal
  shipping_fee : PyVal
  tax_amount : PyVal
  amount_paid : PyVal
deriving DecidableEq

/-- `etl_order_items_from_reconciliation` from src/etl_pipelines.py
(lines 377-483), restricted to the modelled columns: clean the order id,
resolve the customer and product references, drop rows with a missing
resolved key, and derive the numeric line fields, with
`line_item_total_value = quantity * unit_price`.  The batch lacks an
`overall_item_status_derived` column, so `_ensure_df_columns` later fills
the status with NA (`status := none`). -/
def etl_order_items_from_reconciliation (rows : List ReconRaw)
    (current_existing_cust_ids : List String) (current_existing_prod_ids : List String)
    (current_prod_id_map : List (String × String)) : List Item :=
  rows.filterMap (fun r =>
    let oid :=
      match r.transaction_ref with
      | none => none
      | some x => clean_string (some x) .upper none
    let cid := map_recon_customer_id r.client_reference current_existing_cust_ids
    let pid := map_recon_product_id_corrected r.item_reference current_prod_id_map
      current_existing_prod_ids
    match oid, cid, pid with
    | some o, some c, some p =>
      let quantity : Int := toNumericIntD r.quantity_ordered 1
      let unit_price : ℚ := toNumericFloatD r.unit_cost 0
      some { order_id := some o
             customer_id := some c
             product_id := some p
             status := none
             line_total := (quantity : ℚ) * unit_price
             discount := toNumericFloatD r.discount_applied 0
             shipping := toNumericFloatD r.shipping_fee 0
             tax := toNumericFloatD r.tax_amount 0
             amount_paid := toNumericFloatD r.amount_paid 0 }
    | _, _, _ => none)

/-- One raw customer row, restricted to the columns that feed the entity id
and the dedup passes of `etl_customers`: `raw_str_id` is the coalesced
string-id column (before `clean_string`), `raw_num_id` the numeric source-id
column, `email` the coalesced cleaned email. -/
structure CustRaw where
  raw_str_id : Option String
  raw_num_id : PyVal
  email : Option String
deriving DecidableEq

/-- One cleaned customer row, restricted to the id/dedup columns. -/
structure CustRow where
  customer_id : String
  source_customer_id_int : Option Int
  email : Option String
deriving DecidableEq

/-- Integer column comparison with NA sorted last (pandas `na_position='last'`;
pandas uses an unstable quicksort, but only the keyed order matters for the
dedup results proved below, so a deterministic insertion sort realises it). -/
def optIntLeNaLast (a b : Option Int) : Bool :=
  match a, b with
  | none, none => true
  | some _, none => true
  | none, some _ => false
  | some x, some y => decide (x ≤ y)

/-- Sort key of `sort_values(by=['customer_id', 'source_customer_id_int'],
na_position='last')` continued as a Prop relation. -/
def custRowLe (a b : CustRow) : Prop :=
  a.customer_id < b.customer_id ∨
    (a.customer_id = b.customer_id ∧
      optIntLeNaLast a.source_customer_id_int b.source_customer_id_int = true)

instance : DecidableRel custRowLe := fun a b => by
  unfold custRowLe
  exact inferInstance

/-- `drop_duplicates(subset=[key], keep='first')`, keeping the first row of
each key value. -/
def dedupByKeyAux {ρ κ : Type} [DecidableEq κ] (key : ρ → κ) (seen : List κ) :
    List ρ → List ρ
  | [] => []
  | r :: rs =>
    if key r ∈ seen then dedupByKeyAux key seen rs
    else r :: dedupByKeyAux key (key r :: seen) rs

/-- `drop_duplicates(subset=[key], keep='first')`. -/
def dedupByKey {ρ κ : Type} [DecidableEq κ] (key : ρ → κ) (l : List ρ) : List ρ :=
  dedupByKeyAux key [] l

/-- `_has_valid_email`: the email is non-null and non-blank. -/
def hasValidEmail (r : CustRow) : Bool :=
  match r.email with
  | some e => pyStrip e ≠ ""
  | none => false

/-- Sort key of the email-dedup pass, `sort_values(by=['email','customer_id'])`
(every row in that pass has a non-null email). -/
def emailRowLe (a b : CustRow) : Prop :=
  a.email.getD "" < b.email.getD "" ∨
    (a.email.getD "" = b.email.getD "" ∧ a.customer_id ≤ b.customer_id)

instance : DecidableRel emailRowLe := fun a b => by
  unfold emailRowLe
  exact inferInstance

/-- The second dedup pass of `etl_customers` (lines 233-245): among rows with
a valid email, keep the first per distinct email after sorting by
`(email, customer_id)`; rows without a valid email pass through untouched. -/
def customersEmailPass (l : List CustRow) : List CustRow :=
  let withE := l.filter hasValidEmail
  let withoutE := l.filter (fun r => !hasValidEmail r)
  if withE ≠ [] then
    dedupByKey (·.email) (withE.insertionSort emailRowLe) ++ withoutE
  else if withoutE ≠ [] then withoutE
  else l

/-- The id-minting stage of `etl_customers`: clean the string-id column,
parse the numeric-id column, and mint the canonical id with
`create_canonical_customer_id`; the row index is the original position. -/
def mintCustomers (rows : List CustRaw) : List CustRow :=
  (List.range rows.length).zip rows |>.map (fun p =>
    let r := p.2
    let pre := match r.raw_str_id with
      | none => none
      | some x => clean_string (some x) .upper none
    let intVal := toNumericOptInt r.raw_num_id
    { customer_id := create_canonical_customer_id pre intVal (toString p.1)
      source_customer_id_int := intVal
      email := r.email })

/-- The id/dedup tail of `etl_customers` (lines 225-245): `customer_id` is
never NA (`create_canonical_customer_id` is total), so the `dropna` is the
identity; sort by `(customer_id, source_customer_id_int)`, keep the first
row per id, then run the email dedup pass. -/
def etl_customers_ids (rows : List CustRaw) : List CustRow :=
  customersEmailPass (dedupByKey (·.customer_id)
    ((mintCustomers rows).insertionSort custRowLe))

/-- One raw product row, restricted to the id columns of `etl_products`. -/
structure ProdRaw where
  raw_product_id : Option String
  raw_item_id : PyVal
deriving DecidableEq

/-- One cleaned product row, restricted to the id columns. -/
structure ProdRow where
  product_id : Option String
  source_item_id_int : Option Int
deriving DecidableEq

/-- Sort key of `sort_values(by=['product_id', 'source_item_id_int'],
na_position='last')` (ids are non-null at that point). -/
def prodRowLe (a b : ProdRow) : Prop :=
  a.product_id.getD "" < b.product_id.getD "" ∨
    (a.product_id.getD "" = b.product_id.getD "" ∧
      optIntLeNaLast a.source_item_id_int b.source_item_id_int = true)

instance : DecidableRel prodRowLe := fun a b => by
  unfold prodRowLe
  exact inferInstance

/-- The id pipeline of `etl_products` (lines 281-283 and 365-371):
`product_id_canon = clean_string(product_id, 'upper')` (NA stays NA), then
`dropna(subset=['product_id'])`, sort by `(product_id, source_item_id_int)`
and keep the first row per id.  A cleaned id can be the empty string (the
printable filter can erase every character), and `dropna` does not remove
it. -/
def etl_products_ids (rows : List ProdRaw) : List ProdRow :=
  let cleaned := rows.map (fun r =>
    ({ product_id :=
         match r.raw_product_id with
         | none => none
         | some x => clean_string (some x) .upper none
       source_item_id_int := toNumericOptInt r.raw_item_id } : ProdRow))
  let kept := cleaned.filter (fun r => r.product_id.isSome)
  dedupByKey (·.product_id) (kept.insertionSort prodRowLe)

/-- Bidirectional referential closure of an (OrderItems, Orders) pair: every
item's `order_id` is the id of some order, and every order is referenced by
at least one item. -/
def bidirectionalClosure (p : List Item × List Order) : Prop :=
  (∀ it ∈ p.1, ∃ o ∈ p.2, it.order_id = some o.order_id) ∧
  (∀ o ∈ p.2, ∃ it ∈ p.1, it.order_id = some o.order_id)

/-- `m` is a most frequent value of the status column `g` and the least
(in lexicographic string order) among the equally frequent ones. -/
def isLeastMode (g : List (Option String)) (m : String) : Prop :=
  some m ∈ g ∧ (∀ v ∈ g, g.count v ≤ g.count (some m)) ∧
  (∀ t : String, some t ∈ g → g.count (some t) = g.count (some m) → m ≤ t)

/-- Concrete reconciliation rows for the end-to-end `A1` scenario of the
spec: quantities 2 and 1, unit prices 10.0 and 5.0, discounts 0 and 1. -/
def reconExA : ReconRaw :=
  ⟨some "CUST_0001", some "A1", some "P1", .int 2, .float (.finite 10), .int 0, .na, .na, .na⟩

/-- Second row of the `A1` scenario. -/
def reconExB : ReconRaw :=
  ⟨some "CUST_0001", some "A1", some "P1", .int 1, .float (.finite 5), .int 1, .na, .na, .na⟩

/-- The resolved items of the `A1` scenario. -/
def c3Items : List Item :=
  etl_order_items_from_reconciliation [reconExA, reconExB] ["CUST_0001"] ["P1"] []

/-- The aggregated `A1` order of that scenario. -/
def c3Order : Order := aggGroup c3Items "A1"

/-- An order item whose derived status is `SHIPPED` (encountered first). -/
def c4ItemS : Item := ⟨some "A1", some "C", some "P", some "SHIPPED", 1, 0, 0, 0, 0⟩

/-- An order item whose derived status is `DELIVERED` (encountered second). -/
def c4ItemD : Item := ⟨some "A1", some "C", some "P", some "DELIVERED", 1, 0, 0, 0, 0⟩

/-- A single-item group used to instantiate the order-status property. -/
def c4wItem : Item := ⟨some "B1", some "C", some "P", some "PENDING", 1, 0, 0, 0, 0⟩

/-- Its aggregated order. -/
def c4wOrder : Order := aggGroup [c4wItem] "B1"

/-- A resolvable order item used to instantiate the referential closure. -/
def c2Item : Item := ⟨some "A1", some "C", some "P", none, 10, 0, 0, 0, 0⟩

/-- An order item with no customer reference (aggregates to a null-customer
order). -/
def c10Item : Item := ⟨some "A1", none, some "P", none, 10, 0, 0, 0, 0⟩

/-! ### General lemmas about the embedding -/

theorem mem_firstDedupAux {α : Type} [DecidableEq α] (seen : List α) (l : List α)
    (x : α) : x ∈ firstDedupAux seen l ↔ x ∈ l ∧ x ∉ seen := by
  induction l generalizing seen with
  | nil => simp [firstDedupAux]
  | cons y ys ih =>
    by_cases hy : y ∈ seen
    · simp only [firstDedupAux, if_pos hy, ih, List.mem_cons]
      constructor
      · rintro ⟨hx, hnx⟩
        exact ⟨Or.inr hx, hnx⟩
      · rintro ⟨hx | hx, hnx⟩
        · exact absurd (hx ▸ hy) hnx
        · exact ⟨hx, hnx⟩
    · simp only [firstDedupAux, if_neg hy, List.mem_cons, ih]
      constructor
      · rintro (rfl | ⟨hx, hnx⟩)
        · exact ⟨Or.inl rfl, hy⟩
        · exact ⟨Or.inr hx, fun hs => hnx (Or.inr hs)⟩
      · rintro ⟨rfl | hx, hnx⟩
        · exact Or.inl rfl
        · by_cases hxy : x = y
          · exact Or.inl hxy
          · exact Or.inr ⟨hx, fun hs => (hs.elim hxy hnx)⟩

theorem mem_firstDedup {α : Type} [DecidableEq α] (l : List α) (x : α) :
    x ∈ firstDedup l ↔ x ∈ l := by
  simp [firstDedup, mem_firstDedupAux]

theorem filterOrders_subset (orders : List Order) (known : List String) (o : Order)
    (ho : o ∈ filterOrders orders known) : o ∈ orders := by
  unfold filterOrders at ho
  split at ho
  · exact List.mem_of_mem_filter ho
  · exact ho

theorem mem_ordersPre (items : List Item) (o : Order) (ho : o ∈ ordersPre items) :
    o.order_id ∈ orderKeys items ∧ o = aggGroup items o.order_id := by
  unfold ordersPre at ho
  obtain ⟨k, hk, rfl⟩ := List.mem_map.mp ho
  exact ⟨hk, rfl⟩

theorem orderKeys_exists_item (items : List Item) (k : String)
    (hk : k ∈ orderKeys items) : ∃ it ∈ items, it.order_id = some k := by
  unfold orderKeys at hk
  rw [mem_firstDedup] at hk
  obtain ⟨it, hit, hoid⟩ := List.mem_filterMap.mp hk
  exact ⟨it, hit, hoid⟩

theorem mem_filterItems (items : List Item) (orders : List Order) (it : Item)
    (hit : it ∈ filterItems items orders) :
    it ∈ items ∧ ∃ o ∈ orders, it.order_id = some o.order_id := by
  unfold filterItems at hit
  split at hit
  · exact absurd hit (List.not_mem_nil it)
  · obtain ⟨hmem, hpred⟩ := List.mem_filter.mp hit
    refine ⟨hmem, ?_⟩
    revert hpred
    cases hk : it.order_id with
    | none => intro hpred; simp at hpred
    | some k =>
      intro hpred
      have hpred2 : k ∈ List.map (fun x => x.order_id) orders := by
        simpa [List.contains, List.elem_iff] using hpred
      obtain ⟨o, ho, hok⟩ := List.mem_map.mp hpred2
      exact ⟨o, ho, by simp [hok]⟩

theorem filterItems_keeps (items : List Item) (orders : List Order) (it : Item)
    (hmem : it ∈ items) (o : Order) (ho : o ∈ orders) (hk : it.order_id = some o.order_id) :
    it ∈ filterItems items orders := by
  unfold filterItems
  split
  · next hnil => rw [hnil] at ho; exact absurd ho (List.not_mem_nil o)
  · refine List.mem_filter.mpr ⟨hmem, ?_⟩
    simp only [hk, List.contains, List.elem_iff]
    exact List.mem_map.mpr ⟨o, ho, rfl⟩

theorem aggGroup_order_id (items : List Item) (k : String) :
    (aggGroup items k).order_id = k := rfl

theorem combine_orders_are_preAggregates (df_items_list : List (List Item))
    (known : List String) (o : Order)
    (ho : o ∈ (etl_combine_orders_and_create_orders_table df_items_list known).2) :
    o = aggGroup df_items_list.flatten o.order_id := by
  unfold etl_combine_orders_and_create_orders_table at ho
  split at ho
  · exact absurd ho (List.not_mem_nil o)
  · exact (mem_ordersPre _ o (filterOrders_subset _ _ _ ho)).2

theorem aggGroup_totals (items : List Item) (k : String) :
    (aggGroup items k).order_total_value_gross
        = ((groupItems items k).map (·.line_total)).sum ∧
      (aggGroup items k).discount_total = ((groupItems items k).map (·.discount)).sum ∧
      (aggGroup items k).order_total_value_net
        = (aggGroup items k).order_total_value_gross - (aggGroup items k).discount_total :=
  ⟨rfl, rfl, rfl⟩

theorem all_empty_flatten (l : List (List Item))
    (h : l.all (fun x => x = []) = true) : l.flatten = [] := by
  induction l with
  | nil => rfl
  | cons x xs ih =>
    rw [List.all_cons, Bool.and_eq_true] at h
    have hx : x = [] := of_decide_eq_true h.1
    simp [hx, ih h.2]

theorem filterOrders_skip (orders : List Order) (known : List String)
    (h : ∀ o ∈ orders, o.customer_id = none) : filterOrders orders known = orders := by
  unfold filterOrders
  split
  · next hany =>
    obtain ⟨o, ho, hsome⟩ := List.any_eq_true.mp hany
    rw [h o ho] at hsome
    simp at hsome
  · rfl

theorem le_foldr_max (l : List Nat) (x : Nat) (hx : x ∈ l) : x ≤ l.foldr max 0 := by
  induction l with
  | nil => cases hx
  | cons y ys ih =>
    rcases List.mem_cons.mp hx with rfl | h
    · simp [List.foldr_cons, Nat.le_max_left]
    · exact le_trans (ih h) (by simp [List.foldr_cons, Nat.le_max_right])

theorem foldr_max_mem (l : List Nat) : l.foldr max 0 ∈ l ∨ l.foldr max 0 = 0 := by
  induction l with
  | nil => exact Or.inr rfl
  | cons y ys ih =>
    simp only [List.foldr_cons]
    by_cases h : ys.foldr max 0 ≤ y
    · exact Or.inl (by rw [Nat.max_eq_left h]; exact List.mem_cons_self y ys)
    · rw [Nat.max_eq_right (le_of_lt (Nat.lt_of_not_le h))]
      rcases ih with hm | h0
      · exact Or.inl (List.mem_cons_of_mem _ hm)
      · exact Or.inr h0

theorem mem_modeModes (xs : List (Option String)) (v : Option String) :
    v ∈ modeModes xs ↔ v ∈ xs ∧ xs.count v = modeMaxCnt xs := by
  unfold modeModes
  rw [List.mem_filter, mem_firstDedup]
  simp

theorem count_le_modeMaxCnt (xs : List (Option String)) (v : Option String)
    (hv : v ∈ xs) : xs.count v ≤ modeMaxCnt xs := by
  unfold modeMaxCnt
  exact le_foldr_max _ _ (List.mem_map.mpr ⟨v, (mem_firstDedup xs v).mpr hv, rfl⟩)

theorem modeMaxCnt_attained (xs : List (Option String)) (hne : xs ≠ []) :
    ∃ v ∈ xs, xs.count v = modeMaxCnt xs := by
  obtain ⟨x, hx⟩ := List.exists_mem_of_ne_nil xs hne
  have hx1 : 1 ≤ xs.count x := List.count_pos_iff.mpr hx
  have hxle : xs.count x ≤ modeMaxCnt xs := count_le_modeMaxCnt xs x hx
  rcases foldr_max_mem ((firstDedup xs).map (fun v => xs.count v)) with hm | h0
  · obtain ⟨v, hv, hcnt⟩ := List.mem_map.mp hm
    exact ⟨v, (mem_firstDedup xs v).mp hv, hcnt⟩
  · exact absurd (le_trans hx1 hxle) (by unfold modeMaxCnt; omega)

/-- The head of the sorted modes is a mode and is the least string among the
modes: the content of the amended order-status tie-break. -/
theorem pandasModeAgg_least (xs : List (Option String))
    (hall : ∀ s ∈ xs, s.isSome = true) (hne : xs ≠ []) :
    ∃ m : String, pandasModeAgg xs = some m ∧ isLeastMode xs m := by
  have hmodes_ne : ∃ v, v ∈ modeModes xs := by
    obtain ⟨v, hv, hcnt⟩ := modeMaxCnt_attained xs hne
    exact ⟨v, (mem_modeModes xs v).mpr ⟨hv, hcnt⟩⟩
  have hmodes_all : (modeModes xs).all Option.isSome = true := by
    rw [List.all_eq_true]
    intro v hv
    exact hall v ((mem_modeModes xs v).mp hv).1
  obtain ⟨v₀, hv₀⟩ := hmodes_ne
  obtain ⟨t₀, rfl⟩ := Option.isSome_iff_exists.mp (hall v₀ ((mem_modeModes xs v₀).mp hv₀).1)
  have ht₀ : t₀ ∈ (modeModes xs).filterMap id :=
    List.mem_filterMap.mpr ⟨some t₀, hv₀, rfl⟩
  have hsorted_perm : List.Perm (((modeModes xs).filterMap id).insertionSort (· ≤ ·))
      ((modeModes xs).filterMap id) := List.perm_insertionSort _ _
  have ht₀s : t₀ ∈ ((modeModes xs).filterMap id).insertionSort (· ≤ ·) :=
    hsorted_perm.mem_iff.mpr ht₀
  obtain ⟨m, rest, hcons⟩ : ∃ m rest,
      ((modeModes xs).filterMap id).insertionSort (· ≤ ·) = m :: rest := by
    cases hs : ((modeModes xs).filterMap id).insertionSort (· ≤ ·) with
    | nil => rw [hs] at ht₀s; exact absurd ht₀s (List.not_mem_nil t₀)
    | cons a l => exact ⟨a, l, rfl⟩
  have hres : pandasModeAgg xs = some m := by
    unfold pandasModeAgg
    simp only [hmodes_all, if_pos, hcons, List.map_cons]
  have hm_mem : some m ∈ modeModes xs := by
    have : m ∈ (modeModes xs).filterMap id :=
      hsorted_perm.mem_iff.mp (hcons ▸ List.mem_cons_self m rest)
    obtain ⟨v, hv, hvm⟩ := List.mem_filterMap.mp this
    rwa [show v = some m from hvm] at hv
  obtain ⟨hm_xs, hm_cnt⟩ := (mem_modeModes xs (some m)).mp hm_mem
  have hsorted : List.Sorted (· ≤ ·)
      (((modeModes xs).filterMap id).insertionSort (· ≤ ·)) :=
    List.sorted_insertionSort _ _
  refine ⟨m, hres, hm_xs, ?_, ?_⟩
  · intro v hv
    rw [hm_cnt]
    exact count_le_modeMaxCnt xs v hv
  · intro t ht hcnt
    have htm : some t ∈ modeModes xs :=
      (mem_modeModes xs (some t)).mpr ⟨ht, by rw [hcnt, hm_cnt]⟩
    have htf : t ∈ (modeModes xs).filterMap id := List.mem_filterMap.mpr ⟨some t, htm, rfl⟩
    have hts : t ∈ m :: rest := hcons ▸ hsorted_perm.mem_iff.mpr htf
    rcases List.mem_cons.mp hts with rfl | htr
    · exact le_refl t
    · rw [hcons] at hsorted
      exact (List.sorted_cons.mp hsorted).1 t htr

theorem dedupByKeyAux_sublist {ρ κ : Type} [DecidableEq κ] (key : ρ → κ)
    (seen : List κ) (l : List ρ) : (dedupByKeyAux key seen l).Sublist l := by
  induction l generalizing seen with
  | nil => exact List.Sublist.refl []
  | cons r rs ih =>
    by_cases h : key r ∈ seen
    · simp only [dedupByKeyAux, if_pos h]
      exact (ih seen).trans (List.sublist_cons_self r rs)
    · simp only [dedupByKeyAux, if_neg h]
      exact (ih (key r :: seen)).cons₂ r

theorem dedupByKeyAux_key_not_seen {ρ κ : Type} [DecidableEq κ] (key : ρ → κ)
    (seen : List κ) (l : List ρ) (r : ρ) (hr : r ∈ dedupByKeyAux key seen l) :
    key r ∉ seen := by
  induction l generalizing seen with
  | nil => cases hr
  | cons x xs ih =>
    by_cases h : key x ∈ seen
    · rw [dedupByKeyAux, if_pos h] at hr
      exact ih seen hr
    · rw [dedupByKeyAux, if_neg h] at hr
      rcases List.mem_cons.mp hr with rfl | hr2
      · exact h
      · intro hs
        exact ih (key x :: seen) hr2 (List.mem_cons_of_mem _ hs)

theorem dedupByKeyAux_nodup {ρ κ : Type} [DecidableEq κ] (key : ρ → κ)
    (seen : List κ) (l : List ρ) :
    ((dedupByKeyAux key seen l).map key).Nodup := by
  induction l generalizing seen with
  | nil => exact List.nodup_nil
  | cons x xs ih =>
    by_cases h : key x ∈ seen
    · rw [dedupByKeyAux, if_pos h]
      exact ih seen
    · rw [dedupByKeyAux, if_neg h, List.map_cons, List.nodup_cons]
      refine ⟨fun hmem => ?_, ih (key x :: seen)⟩
      obtain ⟨r, hr, hkr⟩ := List.mem_map.mp hmem
      exact dedupByKeyAux_key_not_seen key _ _ r hr (hkr ▸ List.mem_cons_self _ _)

theorem dedupByKey_nodup {ρ κ : Type} [DecidableEq κ] (key : ρ → κ) (l : List ρ) :
    ((dedupByKey key l).map key).Nodup :=
  dedupByKeyAux_nodup key [] l

theorem dedupByKey_sublist {ρ κ : Type} [DecidableEq κ] (key : ρ → κ) (l : List ρ) :
    (dedupByKey key l).Sublist l :=
  dedupByKeyAux_sublist key [] l

theorem nodup_of_subperm {α : Type} {l₁ l₂ : List α} (h : l₁.Subperm l₂)
    (h₂ : l₂.Nodup) : l₁.Nodup := by
  obtain ⟨l', hp, hs⟩ := h
  exact hp.nodup_iff.mp (h₂.sublist hs)

theorem subperm_map {α β : Type} (f : α → β) {l₁ l₂ : List α} (h : l₁.Subperm l₂) :
    (l₁.map f).Subperm (l₂.map f) := by
  obtain ⟨l, hp, hs⟩ := h
  exact ⟨l.map f, hp.map f, hs.map f⟩

theorem subperm_append_compat {α : Type} {l₁ l₂ : List α} (t : List α)
    (h : l₁.Subperm l₂) : (l₁ ++ t).Subperm (l₂ ++ t) := by
  obtain ⟨l, hp, hs⟩ := h
  exact ⟨l ++ t, hp.append_right t, hs.append_right t⟩

/-- The ids of the email-pass output form a sub-permutation of the input ids,
so the pass preserves distinctness of `customer_id`. -/
theorem customersEmailPass_ids_subperm (l : List CustRow) :
    ((customersEmailPass l).map (·.customer_id)).Subperm (l.map (·.customer_id)) := by
  have hsub : List.Subperm
      (dedupByKey (fun r : CustRow => r.email)
        ((l.filter hasValidEmail).insertionSort emailRowLe))
      (l.filter hasValidEmail) := by
    refine List.Subperm.trans ⟨_, List.Perm.refl _, dedupByKey_sublist _ _⟩ ?_
    exact (List.perm_insertionSort emailRowLe _).subperm
  have hperm : List.Perm
      (l.filter hasValidEmail ++ l.filter (fun r => !hasValidEmail r)) l :=
    List.filter_append_perm _ l
  simp only [customersEmailPass]
  split
  · rw [List.map_append]
    refine List.Subperm.trans
      (subperm_append_compat _ (subperm_map (fun r : CustRow => r.customer_id) hsub)) ?_
    rw [← List.map_append]
    exact (hperm.map _).subperm
  · split
    · exact ((List.filter_sublist l).map _).subperm
    · exact List.Subperm.refl _

theorem customersEmailPass_mem (l : List CustRow) (r : CustRow)
    (hr : r ∈ customersEmailPass l) : r ∈ l := by
  simp only [customersEmailPass] at hr
  split at hr
  · rcases List.mem_append.mp hr with h | h
    · have h2 : r ∈ (l.filter hasValidEmail).insertionSort emailRowLe :=
        (dedupByKey_sublist (fun r : CustRow => r.email) _).mem h
      exact List.mem_of_mem_filter ((List.perm_insertionSort emailRowLe _).mem_iff.mp h2)
    · exact List.mem_of_mem_filter h
  · split at hr
    · exact List.mem_of_mem_filter hr
    · exact hr

theorem append_ne_empty_of_left (a b : String) (ha : a.length ≠ 0) : a ++ b ≠ "" := by
  intro h
  have hlen := congrArg String.length h
  rw [String.length_append] at hlen
  have : String.length "" = 0 := rfl
  omega

theorem create_canonical_customer_id_ne_empty (pre : Option String) (intVal : Option Int)
    (idx : String) : create_canonical_customer_id pre intVal idx ≠ "" := by
  have hfrom : (match intVal with
      | some n => "CUST_" ++ pyZfill ZFILL_LENGTH (toString n)
      | none => "CUST_UNKNOWN_" ++ idx) ≠ "" := by
    cases intVal with
    | some n => exact append_ne_empty_of_left "CUST_" _ (by decide)
    | none => exact append_ne_empty_of_left "CUST_UNKNOWN_" _ (by decide)
  simp only [create_canonical_customer_id]
  cases pre with
  | none => exact hfrom
  | some p =>
    dsimp only
    by_cases hstrip : pyStrip p ≠ ""
    · rw [if_pos hstrip]
      split
      · intro h
        exact hstrip (by rw [h]; rfl)
      · exact append_ne_empty_of_left "CUST_" _ (by decide)
    · rw [if_neg hstrip]
      exact hfrom

theorem mintCustomers_id_ne_empty (rows : List CustRaw) (r : CustRow)
    (hr : r ∈ mintCustomers rows) : r.customer_id ≠ "" := by
  unfold mintCustomers at hr
  obtain ⟨p, _, rfl⟩ := List.mem_map.mp hr
  exact create_canonical_customer_id_ne_empty _ _ _

theorem etl_customers_ids_nodup (rows : List CustRaw) :
    ((etl_customers_ids rows).map (·.customer_id)).Nodup := by
  unfold etl_customers_ids
  exact nodup_of_subperm (customersEmailPass_ids_subperm _) (dedupByKey_nodup _ _)

theorem etl_customers_ids_mem_minted (rows : List CustRaw) (r : CustRow)
    (hr : r ∈ etl_customers_ids rows) : r ∈ mintCustomers rows := by
  unfold etl_customers_ids at hr
  have h1 := customersEmailPass_mem _ r hr
  have h2 := (dedupByKey_sublist (fun r : CustRow => r.customer_id) _).mem h1
  exact (List.perm_insertionSort custRowLe _).mem_iff.mp h2

theorem etl_customers_ids_ne_empty (rows : List CustRaw) (r : CustRow)
    (hr : r ∈ etl_customers_ids rows) : r.customer_id ≠ "" :=
  mintCustomers_id_ne_empty rows r (etl_customers_ids_mem_minted rows r hr)

theorem etl_products_ids_nodup (rows : List ProdRaw) :
    ((etl_products_ids rows).map (·.product_id)).Nodup := by
  unfold etl_products_ids
  exact dedupByKey_nodup _ _

theorem etl_products_ids_isSome (rows : List ProdRaw) (r : ProdRow)
    (hr : r ∈ etl_products_ids rows) : r.product_id.isSome = true := by
  unfold etl_products_ids at hr
  have h2 := (dedupByKey_sublist (fun r : ProdRow => r.product_id) _).mem hr
  have h3 := (List.perm_insertionSort prodRowLe _).mem_iff.mp h2
  exact (List.mem_filter.mp h3).2

/-! ### Claim theorems -/

/-- C1 (counterexample): with the known-customer set containing exactly
`CUST_0007`, the reconciliation customer-reference resolver applied to raw
reference `CLI_7` returns `None`, not `CUST_0007`: the `CLI_` prefix is
translated to `CUST_` without zero-padding, so `CUST_7` is looked up and
misses. -/
theorem C1_counterexample :
    map_recon_customer_id (some "CLI_7") ["CUST_0007"] = none ∧
    "CUST_0007" ∈ ["CUST_0007"] ∧
    map_recon_customer_id (some "CLI_7") ["CUST_0007"] ≠ some "CUST_0007" := by
  decide

/-- C1 (amended): the canonicalizer produces `CUST_0007` for a customer row
whose only usable identifier is the raw numeric id 7 (also through the whole
customer id pipeline); the resolver translates `CLI_7` to `CUST_7` without
zero-padding, so it resolves to `CUST_7` exactly when `CUST_7` itself is a
known id, and returns `None` when only `CUST_0007` is known. -/
theorem C1_amended :
    create_canonical_customer_id none (some 7) "0" = "CUST_0007" ∧
    (etl_customers_ids [⟨none, .int 7, none⟩]).map (·.customer_id) = ["CUST_0007"] ∧
    map_recon_customer_id (some "CLI_7") ["CUST_0007"] = none ∧
    map_recon_customer_id (some "CLI_7") ["CUST_0007", "CUST_7"] = some "CUST_7" := by
  with_unfolding_all decide

/-- C2: every (OrderItems, Orders) pair returned by
`etl_combine_orders_and_create_orders_table` is bidirectionally closed:
each surviving item's `order_id` names a surviving order, and each surviving
order is referenced by at least one surviving item. -/
theorem C2_bidirectional_closure (df_items_list : List (List Item))
    (known : List String) :
    bidirectionalClosure (etl_combine_orders_and_create_orders_table df_items_list known) := by
  unfold etl_combine_orders_and_create_orders_table
  split
  · exact ⟨fun it hit => absurd hit (List.not_mem_nil it),
      fun o ho => absurd ho (List.not_mem_nil o)⟩
  · set allItems := df_items_list.flatten with hall
    set orders := filterOrders (ordersPre allItems) known with hord
    constructor
    · intro it hit
      exact (mem_filterItems allItems orders it hit).2
    · intro o ho
      have hpre : o ∈ ordersPre allItems := filterOrders_subset _ _ _ ho
      obtain ⟨hk, hagg⟩ := mem_ordersPre allItems o hpre
      obtain ⟨it, hitmem, hitid⟩ := orderKeys_exists_item allItems o.order_id hk
      exact ⟨it, filterItems_keeps allItems orders it hitmem o ho hitid, hitid⟩

/-- C2 (witness): instantiating the closure on a one-item batch. -/
theorem C2_witness :
    c2Item ∈ (etl_combine_orders_and_create_orders_table [[c2Item]] ["C"]).1 ∧
    ∃ o ∈ (etl_combine_orders_and_create_orders_table [[c2Item]] ["C"]).2,
      c2Item.order_id = some o.order_id := by
  refine ⟨by with_unfolding_all decide, ?_⟩
  exact (C2_bidirectional_closure [[c2Item]] ["C"]).1 c2Item (by with_unfolding_all decide)

/-- C3: for every aggregated Orders row, `order_total_value_gross` is the sum
of its group's `line_item_total_value`, `discount_total` the sum of the
discounts, and `order_total_value_net = gross - discount_total` exactly; and
in the concrete `A1` scenario (reconciliation items with quantities 2 and 1,
unit prices 10.0 and 5.0, discounts 0 and 1, line totals computed as
quantity times unit price) the aggregate is gross 25.0, discount 1.0,
net 24.0. -/
theorem C3_order_totals :
    (∀ (df_items_list : List (List Item)) (known : List String) (o : Order),
        o ∈ (etl_combine_orders_and_create_orders_table df_items_list known).2 →
        o.order_total_value_gross
            = ((groupItems df_items_list.flatten o.order_id).map (·.line_total)).sum ∧
          o.discount_total
            = ((groupItems df_items_list.flatten o.order_id).map (·.discount)).sum ∧
          o.order_total_value_net
            = o.order_total_value_gross - o.discount_total) ∧
    c3Items.map (fun it => (it.line_total, it.discount)) = [((20 : ℚ), 0), (5, 1)] ∧
    (etl_combine_orders_and_create_orders_table [c3Items] ["CUST_0001"]).2.map
        (fun o => (o.order_total_value_gross, o.discount_total, o.order_total_value_net))
      = [((25 : ℚ), 1, 24)] := by
  refine ⟨?_, by with_unfolding_all decide, by with_unfolding_all decide⟩
  intro df_items_list known o ho
  have hagg := combine_orders_are_preAggregates df_items_list known o ho
  rw [hagg]
  exact ⟨rfl, rfl, rfl⟩

/-- C3 (witness): the general totals identity applied to the `A1` order. -/
theorem C3_witness :
    c3Order ∈ (etl_combine_orders_and_create_orders_table [c3Items] ["CUST_0001"]).2 ∧
    c3Order.order_total_value_gross
      = ((groupItems [c3Items].flatten c3Order.order_id).map (·.line_total)).sum := by
  refine ⟨by with_unfolding_all decide, ?_⟩
  exact (C3_order_totals.1 [c3Items] ["CUST_0001"] c3Order (by with_unfolding_all decide)).1

/-- C4 (counterexample): an order with one `SHIPPED` item (encountered
first) and one `DELIVERED` item has the two statuses tied for most frequent,
yet the aggregated `order_status` is `DELIVERED` — pandas sorts the modes
and `iat[0]` takes the alphabetically least — not the first-encountered
`SHIPPED` the claim prescribes. -/
theorem C4_counterexample :
    (etl_combine_orders_and_create_orders_table [[c4ItemS, c4ItemD]] ["C"]).2.map
        (·.order_status) = [some "DELIVERED"] ∧
    ((groupItems [c4ItemS, c4ItemD] "A1").map (·.status)).count (some "SHIPPED")
      = ((groupItems [c4ItemS, c4ItemD] "A1").map (·.status)).count (some "DELIVERED") ∧
    c4ItemS.status = some "SHIPPED" ∧
    some "DELIVERED" ≠ (some "SHIPPED" : Option String) := by
  with_unfolding_all decide

/-- C4 (amended): for every aggregated order whose group has a nonempty,
all-non-null status column, the aggregated `order_status` is a mode of the
item statuses, and among equally frequent statuses the lexicographically
least is chosen (pandas sorts the modes before taking the first). -/
theorem C4_amended (df_items_list : List (List Item)) (known : List String) (o : Order)
    (ho : o ∈ (etl_combine_orders_and_create_orders_table df_items_list known).2)
    (hall : ∀ s ∈ (groupItems df_items_list.flatten o.order_id).map (·.status),
      s.isSome = true)
    (hne : (groupItems df_items_list.flatten o.order_id).map (·.status) ≠ []) :
    ∃ m, o.order_status = some m ∧
      isLeastMode ((groupItems df_items_list.flatten o.order_id).map (·.status)) m := by
  have hagg := combine_orders_are_preAggregates df_items_list known o ho
  have hstat : o.order_status
      = pandasModeAgg ((groupItems df_items_list.flatten o.order_id).map (·.status)) := by
    conv_lhs => rw [hagg]
    rfl
  obtain ⟨m, hm, hleast⟩ := pandasModeAgg_least _ hall hne
  exact ⟨m, hstat.trans hm, hleast⟩

/-- C4 (witness): the amended property instantiated on a one-item group. -/
theorem C4_witness :
    ∃ m, c4wOrder.order_status = some m ∧
      isLeastMode ((groupItems [[c4wItem]].flatten c4wOrder.order_id).map (·.status)) m :=
  C4_amended [[c4wItem]] ["C"] c4wOrder (by with_unfolding_all decide)
    (by with_unfolding_all decide) (by with_unfolding_all decide)

/-- C5 (counterexample): `1234567` has a 7-digit cleaned form (within the
claimed 7..15 passthrough band, neither 10 digits nor 11 starting with 1),
yet the standardizer returns the default, not the bare digit string. -/
theorem C5_counterexample :
    standardize_phone_strict (some "1234567") none = none ∧
    (String.mk ("1234567".data.filter Char.isDigit)).length = 7 ∧
    standardize_phone_strict (some "1234567") none ≠ some "1234567" := by
  decide

/-- C5 (amended): the phone standardizer formats a 10-digit cleaned form as
`(xxx) xxx-xxxx` and an 11-digit form starting with `1` as
`+1 (xxx) xxx-xxxx`; every other input — including digit strings of length
7..15 — yields the supplied default (there is no bare-digit passthrough). -/
theorem C5_amended (s : String) (dflt : Option String) (c : String)
    (hc : c = String.mk (s.data.filter Char.isDigit)) :
    (c.length = 10 → standardize_phone_strict (some s) dflt
        = some ("(" ++ pySlice c 0 3 ++ ") " ++ pySlice c 3 6 ++ "-" ++ pySlice c 6 10)) ∧
    (c.length = 11 → strStartsWith c "1" = true → standardize_phone_strict (some s) dflt
        = some ("+1 (" ++ pySlice c 1 4 ++ ") " ++ pySlice c 4 7 ++ "-" ++ pySlice c 7 11)) ∧
    (c.length ≠ 10 → ¬(c.length = 11 ∧ strStartsWith c "1" = true) →
      standardize_phone_strict (some s) dflt = dflt) := by
  subst hc
  simp only [standardize_phone_strict]
  refine ⟨fun h10 => ?_, fun h11 hs1 => ?_, fun hn10 hn11 => ?_⟩
  · rw [if_pos h10]
  · rw [if_neg (by omega), if_pos (by rw [h11, hs1]; rfl)]
  · rw [if_neg hn10, if_neg ?_]
    intro hb
    simp only [Bool.and_eq_true, decide_eq_true_eq] at hb
    exact hn11 hb

/-- C5 (witness): the fallback clause applied at the 7-digit input. -/
theorem C5_witness :
    standardize_phone_strict (some "1234567") none = none :=
  (C5_amended "1234567" none (String.mk ("1234567".data.filter Char.isDigit)) rfl).2.2
    (by decide) (by decide)

/-- C6 (counterexample): the postal-code standardizer applied to
`12345-6789` does not return the 5-digit base code `12345`. -/
theorem C6_counterexample :
    standardize_postal_code (some "12345-6789") none ≠ some "12345" := by
  decide

/-- C6 (amended): the postal-code standardizer re-hyphenates a 9-digit
cleaned form, so `12345-6789` is returned as the full ZIP+4 `12345-6789`,
not truncated to the base code. -/
theorem C6_amended :
    standardize_postal_code (some "12345-6789") none = some "12345-6789" := by
  decide

/-- C7 (counterexample): a row with the parseable provided age 99 and the
birth date `2000-01-01` gets the birth-date-derived age (26 at a pipeline
run dated 2026-10-12), not the provided 99: `age_calculated` takes
precedence and `fillna` only fills its gaps. -/
theorem C7_counterexample :
    toNumericOptInt (.str "99") = some 99 ∧
    age_final ⟨2026, 10, 12⟩ (some "2000-01-01") (.str "99") = some 26 ∧
    ((26 : Int) ≠ 99) := by
  with_unfolding_all decide

/-- C7 (amended): the provided age is used only when no age can be computed
from the birth date; whenever the birth date yields an age, that computed
age overrides the provided one. -/
theorem C7_amended (today : Date) (birth : Option String) (raw : PyVal) :
    (calculate_age today birth = none → age_final today birth raw = toNumericOptInt raw) ∧
    (∀ a, calculate_age today birth = some a → age_final today birth raw = some a) := by
  unfold age_final
  constructor
  · intro h
    rw [h]
  · intro a h
    rw [h]

/-- C7 (witness): with no birth date the provided age 99 is used. -/
theorem C7_witness :
    age_final ⟨2026, 10, 12⟩ none (.str "99") = toNumericOptInt (.str "99") ∧
    toNumericOptInt (.str "99") = some 99 :=
  ⟨(C7_amended ⟨2026, 10, 12⟩ none (.str "99")).1 rfl, by with_unfolding_all decide⟩

/-- C8 (counterexample): a product row whose raw id is the single
non-printable character `\x01` cleans to the empty string, which is not NA:
the product ETL emits a row with `product_id = ""`, violating the claimed
non-emptiness of entity ids. -/
theorem C8_counterexample :
    etl_products_ids [⟨some "\x01", .na⟩] = [⟨some "", none⟩] := by
  with_unfolding_all decide

/-- C8 (amended): entity ids of both entity ETL outputs are non-null and
pairwise distinct within the table, and customer ids are additionally
non-empty; a product id can be the empty string when cleaning erases every
character of the raw id. -/
theorem C8_amended :
    (∀ rows : List CustRaw, ((etl_customers_ids rows).map (·.customer_id)).Nodup ∧
      ∀ r ∈ etl_customers_ids rows, r.customer_id ≠ "") ∧
    (∀ rows : List ProdRaw, ((etl_products_ids rows).map (·.product_id)).Nodup ∧
      ∀ r ∈ etl_products_ids rows, r.product_id.isSome = true) :=
  ⟨fun rows => ⟨etl_customers_ids_nodup rows,
      fun r hr => etl_customers_ids_ne_empty rows r hr⟩,
   fun rows => ⟨etl_products_ids_nodup rows,
      fun r hr => etl_products_ids_isSome rows r hr⟩⟩

/-- C8 (witness): the uniqueness/non-emptiness instantiated on a concrete
customer batch. -/
theorem C8_witness :
    ((etl_customers_ids [⟨none, .int 7, none⟩]).map (·.customer_id)).Nodup ∧
    (⟨"CUST_0007", some 7, none⟩ : CustRow) ∈ etl_customers_ids [⟨none, .int 7, none⟩] ∧
    (⟨"CUST_0007", some 7, none⟩ : CustRow).customer_id ≠ "" := by
  refine ⟨(C8_amended.1 [⟨none, .int 7, none⟩]).1, by with_unfolding_all decide, ?_⟩
  exact (C8_amended.1 [⟨none, .int 7, none⟩]).2 ⟨"CUST_0007", some 7, none⟩
    (by with_unfolding_all decide)

/-- C9: `to_numeric_safe` is not total under its coerce policy — with an
integer target type and an infinite input (the string `inf`, or a float
infinity), `int(round(num))` / `int(value)` raises `OverflowError`, which
the `except (ValueError, TypeError)` clauses do not catch, so the exception
escapes instead of the supplied default being returned. -/
theorem C9_to_numeric_safe_raises :
    to_numeric_safe (.str "inf") .int none true = .error .overflowError ∧
    to_numeric_safe (.float .inf) .int none true = .error .overflowError := by
  decide

/-- C10: when every aggregated order's `customer_id` is null, the
known-customer filter is skipped entirely: the aggregator returns the
unfiltered aggregated orders together with the items filtered only against
those orders' ids, independently of `known_customer_ids`. -/
theorem C10_skip_filter_when_all_null (df_items_list : List (List Item))
    (known : List String)
    (h : ∀ o ∈ ordersPre df_items_list.flatten, o.customer_id = none) :
    etl_combine_orders_and_create_orders_table df_items_list known
      = (filterItems df_items_list.flatten (ordersPre df_items_list.flatten),
         ordersPre df_items_list.flatten) := by
  unfold etl_combine_orders_and_create_orders_table
  split
  · next hallempty =>
    rw [all_empty_flatten df_items_list hallempty]
    rfl
  · dsimp only
    rw [filterOrders_skip _ known h]

/-- C10 (witness): a batch whose single item has no customer reference is
returned in full even though the known-customer set does not match. -/
theorem C10_witness :
    etl_combine_orders_and_create_orders_table [[c10Item]] ["CUST_X"]
      = (filterItems [[c10Item]].flatten (ordersPre [[c10Item]].flatten),
         ordersPre [[c10Item]].flatten) ∧
    (etl_combine_orders_and_create_orders_table [[c10Item]] ["CUST_X"]).1 = [c10Item] := by
  refine ⟨C10_skip_filter_when_all_null [[c10Item]] ["CUST_X"]
    (by with_unfolding_all decide), by with_unfolding_all decide⟩

end NexusFlow
